import Mathlib

/-!
Verification of the incident-counter scripts (`scripts/check_incident_counter.py`,
`scripts/incident_utils.py`, `scripts/reset_counter.py`).

The Python code is shallowly embedded: incident records carry their raw date
string (Python compares and sorts these strings lexicographically); the external
`dateutil.parser.parse` library call is abstracted as a parameter
`parse : String → Option Int` mapping a date string to a proleptic Gregorian day
number (`none` when the library raises); `sys.exit` / uncaught exceptions are
modelled with `Except`.  A concrete executable parser `isoParse`, implementing
the library's behaviour on ISO-8601 calendar-date strings, instantiates the
parameter in witnesses.
-/

/-- An entry of the `incidents` array in `last_incident.json`.  Only the `date`
field participates in any computation; the other fields are carried as plain
strings as `reset_counter.py` writes them. -/
structure IncidentRecord where
  date : String
  description : String
  postmortem_link : String
  severity : String
deriving DecidableEq

abbrev IncidentLog := List IncidentRecord

/-- The JSON document `{"incidents": [...]}`. -/
structure IncidentData where
  incidents : IncidentLog
deriving DecidableEq

/-- Abstraction of `dateutil.parser.parse(s).date()`: the day number of the
parsed calendar date, or `none` when the library raises a parse error. -/
abbrev DateParser := String → Option Int

instance {ε α : Type _} [DecidableEq ε] [DecidableEq α] : DecidableEq (Except ε α) := fun x y =>
  match x, y with
  | .ok a, .ok b =>
    if h : a = b then .isTrue (h ▸ rfl) else .isFalse (fun hh => h (Except.ok.inj hh))
  | .error e, .error f =>
    if h : e = f then .isTrue (h ▸ rfl) else .isFalse (fun hh => h (Except.error.inj hh))
  | .ok _, .error _ => .isFalse (fun hh => Except.noConfusion hh)
  | .error _, .ok _ => .isFalse (fun hh => Except.noConfusion hh)

/-- Python's `≤` on strings: lexicographic comparison of the two character
sequences by Unicode code point, a shorter string preceding its extensions. -/
def charListLe : List Char → List Char → Bool
  | [], _ => true
  | _ :: _, [] => false
  | a :: as, b :: bs =>
    if a.toNat < b.toNat then true
    else if b.toNat < a.toNat then false
    else charListLe as bs

/-- Python string comparison `a <= b`, applied to the raw date strings. -/
def strLe (a b : String) : Prop := charListLe a.data b.data = true

instance (a b : String) : Decidable (strLe a b) := inferInstanceAs (Decidable (_ = true))

/-- Python `sorted(incidents, key=lambda x: x['date'])`: ascending by the raw
date string (lexicographic string comparison). -/
def byDateAsc : IncidentRecord → IncidentRecord → Prop := fun a b => strLe a.date b.date

/-- Python `sorted(incidents, key=lambda x: x['date'], reverse=True)`. -/
def byDateDesc : IncidentRecord → IncidentRecord → Prop := fun a b => strLe b.date a.date

instance : DecidableRel byDateAsc := fun a b => inferInstanceAs (Decidable (strLe a.date b.date))

instance : DecidableRel byDateDesc := fun a b => inferInstanceAs (Decidable (strLe b.date a.date))

/-- `get_last_incident_date` (identical in all three scripts): `None` on an
empty list, else the date string of the first element after sorting by date
string, most recent first. -/
def get_last_incident_date (incidents : IncidentLog) : Option String :=
  match incidents with
  | [] => none
  | _ :: _ => ((incidents.insertionSort byDateDesc).head?).map IncidentRecord.date

/-- `calculate_days_since_incident` as in `check_incident_counter.py` and
`incident_utils.py`: 0 when the log is empty (or the maximal date string is
empty — Python `if not last_incident_date_str`), the day difference from the
last incident to the reference date when it parses, and a fatal `sys.exit(1)`
(modelled as `.error`) when parsing raises. -/
def calculate_days_since_incident (parse : DateParser) (incidents : IncidentLog)
    (refDate : Int) : Except String Int :=
  match get_last_incident_date incidents with
  | none => .ok 0
  | some s =>
    if s = "" then .ok 0
    else
      match parse s with
      | some d => .ok (refDate - d)
      | none => .error ("Error parsing date " ++ s)

/-- `calculate_days_since_incident` as in `reset_counter.py`: identical except
that a parse error is caught and `0` is returned instead of aborting. -/
def calculate_days_since_incident_reset (parse : DateParser) (incidents : IncidentLog)
    (refDate : Int) : Int :=
  match get_last_incident_date incidents with
  | none => 0
  | some s =>
    if s = "" then 0
    else
      match parse s with
      | some d => refDate - d
      | none => 0

/-- The gap-collecting loop of `calculate_record_streak`: for each pair of
consecutive entries of the (already sorted) list, parse both dates and record
`end - start`; a parse failure propagates (Python: uncaught exception). -/
def consecutiveGaps (parse : DateParser) : IncidentLog → Except String (List Int)
  | [] => .ok []
  | [_] => .ok []
  | a :: b :: rest =>
    match parse a.date, parse b.date with
    | some da, some db =>
      match consecutiveGaps parse (b :: rest) with
      | .ok gs => .ok ((db - da) :: gs)
      | .error e => .error e
    | none, _ => .error ("Error parsing date " ++ a.date)
    | some _, none => .error ("Error parsing date " ++ b.date)

/-- `calculate_record_streak` (`check_incident_counter.py`): with fewer than two
incidents the current streak is the record; otherwise the maximum of 0, the
gaps between consecutive incidents sorted ascending by date string, and the
current streak. -/
def calculate_record_streak (parse : DateParser) (incidents : IncidentLog)
    (refDate : Int) : Except String Int :=
  if incidents.length < 2 then
    calculate_days_since_incident parse incidents refDate
  else
    match consecutiveGaps parse (incidents.insertionSort byDateAsc) with
    | .error e => .error e
    | .ok gaps =>
      match calculate_days_since_incident parse incidents refDate with
      | .error e => .error e
      | .ok current => .ok (max (gaps.foldl max 0) current)

/-- The f-string `f"🏆 {days} Days! Amazing streak! 🏆"`. -/
def recurring_text (days : Int) : String :=
  "🏆 " ++ toString days ++ " Days! Amazing streak! 🏆"

/-- `get_milestone_message` (`check_incident_counter.py`): exact-milestone table
first, then the recurring rule for `days > 100` divisible by 50, else `None`. -/
def get_milestone_message (days : Int) : Option String :=
  if days = 10 then some "🎉 10 Days! Team shoutout time! 🎉"
  else if days = 30 then some "☕ 30 Days! Virtual coffee vouchers for everyone! ☕"
  else if days = 50 then some "🍽️ 50 Days! Team lunch celebration! 🍽️"
  else if days = 100 then some "🎁 100 Days! Custom swag incoming! 🎁"
  else if days > 100 ∧ days % 50 = 0 then some (recurring_text days)
  else none

/-- The `if/elif` status ladder inlined at the top of `format_slack_message`,
returning the `(emoji, status)` pair. -/
def classify_status (days : Int) : String × String :=
  if days = 0 then ("🔄", "Starting fresh")
  else if days < 10 then ("🌱", "Building momentum")
  else if days < 30 then ("🌿", "Growing strong")
  else if days < 50 then ("🌳", "Solid foundation")
  else ("🏆", "Excellence achieved")

/-- A Slack block kind, keeping exactly the payload the script constructs. -/
inductive Block where
  | header (text : String)
  | fieldsSection (fields : List String)
  | textSection (text : String)
  | contextBlock (elements : List String)
  | divider
deriving DecidableEq

structure SlackMessage where
  text : String
  blocks : List Block
deriving DecidableEq

def newRecordText : String :=
  "🎊 *NEW RECORD!* 🎊\nThis is now the longest streak in company history!"

/-- `format_slack_message` (`check_incident_counter.py`): the base header and
four-field section, then conditional appends for the new-record section, the
milestone section and the context footer.  Python's falsy test
`{last_incident_date or 'None recorded'}` also replaces an empty string. -/
def format_slack_message (data : IncidentData) (days_since record_streak : Int) :
    SlackMessage :=
  let last_incident_date := get_last_incident_date data.incidents
  let emoji := (classify_status days_since).1
  let status := (classify_status days_since).2
  let lastText :=
    match last_incident_date with
    | none => "None recorded"
    | some s => if s = "" then "None recorded" else s
  let blocks0 : List Block :=
    [ .header (emoji ++ " Days Without Incident"),
      .fieldsSection
        [ "*Current Streak:*\n" ++ toString days_since ++ " days",
          "*Status:*\n" ++ status,
          "*Last Incident:*\n" ++ lastText,
          "*Record Streak:*\n" ++ toString record_streak ++ " days" ] ]
  let blocks1 :=
    if days_since > 0 ∧ days_since = record_streak then
      blocks0 ++ [.textSection newRecordText]
    else blocks0
  let blocks2 :=
    match get_milestone_message days_since with
    | none => blocks1
    | some m =>
      if m = "" then blocks1
      else blocks1 ++ [.textSection ("🎊 *MILESTONE REACHED!* 🎊\n" ++ m)]
  let blocks3 :=
    if days_since > 0 then
      blocks2 ++ [.contextBlock
        [ "Total incidents recorded: " ++ toString data.incidents.length ++
          " | Every day without an incident is a win! 💪" ] ]
    else blocks2
  ⟨"Days Without Incident: " ++ toString days_since, blocks3⟩

/-- State of the `last_incident.json` file as the loaders observe it. -/
inductive FileState where
  | missing
  | invalidJson
  | valid (data : IncidentData)

/-- `load_incident_data` in `check_incident_counter.py`: a missing file is an
error (`sys.exit(1)`), as is invalid JSON. -/
def load_incident_data_check (fs : FileState) : Except String IncidentData :=
  match fs with
  | .missing => .error "Error: last_incident.json not found"
  | .invalidJson => .error "Error parsing last_incident.json"
  | .valid d => .ok d

/-- `load_incident_data` in `incident_utils.py`: a missing file yields the
empty log; invalid JSON is fatal. -/
def load_incident_data_utils (fs : FileState) : Except String IncidentData :=
  match fs with
  | .missing => .ok ⟨[]⟩
  | .invalidJson => .error "Error parsing last_incident.json"
  | .valid d => .ok d

/-- `load_incident_data` in `reset_counter.py`: a missing file yields the empty
log; a JSON decode error propagates uncaught. -/
def load_incident_data_reset (fs : FileState) : Except String IncidentData :=
  match fs with
  | .missing => .ok ⟨[]⟩
  | .invalidJson => .error "json.JSONDecodeError"
  | .valid d => .ok d

/-- The incident-append portion of `reset_counter.py`'s `main` (the spec's
`append_incident`): `days_lost` is computed from the log *before* the new
record is appended, then the record is appended at the end. -/
def append_incident (parse : DateParser) (log : IncidentLog) (newRec : IncidentRecord)
    (refDate : Int) : IncidentLog × Int :=
  let days_lost := calculate_days_since_incident_reset parse log refDate
  (log ++ [newRec], days_lost)

/-! ### A concrete date parser for witnesses

`isoParse` implements `dateutil.parser.parse(s).date()` on ISO-8601
calendar-date strings `YYYY[-M]M[-D]D` (day validity included), returning the
proleptic Gregorian day number relative to 1970-01-01; everything else maps to
`none`, matching the library's `ParserError` on the concrete strings used
below. -/

def isLeapYear (y : Nat) : Bool :=
  (y % 4 == 0) && (y % 100 != 0 || y % 400 == 0)

def daysInMonth (y m : Nat) : Nat :=
  if m = 2 then (if isLeapYear y then 29 else 28)
  else if m = 4 ∨ m = 6 ∨ m = 9 ∨ m = 11 then 30
  else 31

/-- Day number of a civil date (proleptic Gregorian, epoch 1970-01-01). -/
def daysFromCivil (y m d : Int) : Int :=
  let y2 := if m ≤ 2 then y - 1 else y
  let era := (if 0 ≤ y2 then y2 else y2 - 399) / 400
  let yoe := y2 - era * 400
  let mp := (m + 9) % 12
  let doy := (153 * mp + 2) / 5 + d - 1
  let doe := yoe * 365 + yoe / 4 - yoe / 100 + doy
  era * 146097 + doe - 719468

def splitOnDash : List Char → List (List Char)
  | [] => [[]]
  | c :: rest =>
    if c = '-' then [] :: splitOnDash rest
    else
      match splitOnDash rest with
      | [] => [[c]]
      | g :: gs => (c :: g) :: gs

def digitsToNat (cs : List Char) : Option Nat :=
  if cs.isEmpty then none
  else if cs.all Char.isDigit then
    some (cs.foldl (fun acc c => acc * 10 + (c.toNat - 48)) 0)
  else none

def isoParse (s : String) : Option Int :=
  match splitOnDash s.toList with
  | [ys, ms, ds] =>
    match digitsToNat ys, digitsToNat ms, digitsToNat ds with
    | some y, some m, some d =>
      if ys.length = 4 ∧ 1 ≤ m ∧ m ≤ 12 ∧ 1 ≤ d ∧ d ≤ daysInMonth y m then
        some (daysFromCivil (y : Int) (m : Int) (d : Int))
      else none
    | _, _, _ => none
  | _ => none

/-- Shorthand for an incident record with the given date and the other fields
left as `reset_counter.py` writes them for an argument-less invocation. -/
def mkRec (s : String) : IncidentRecord := ⟨s, "", "", ""⟩

/-! ### Spec-side definitions

The following definitions formalise the specification's wording, to be compared
against the code-derived functions above. -/

/-- The parsed dates of a log, in list order (used to state chronological
properties; total on logs whose dates all parse). -/
def datesOf (parse : DateParser) (l : IncidentLog) : List Int :=
  l.map fun r => (parse r.date).getD 0

/-- Gaps between consecutive entries of a list of day numbers. -/
def pairGaps : List Int → List Int
  | [] => []
  | [_] => []
  | a :: b :: rest => (b - a) :: pairGaps (b :: rest)

/-- A row of the spec's `status_thresholds` table. -/
structure StatusThreshold where
  min_days : Int
  max_days : Option Int
  emoji : String
  status_label : String
deriving DecidableEq

/-- The threshold table corresponding to the status ladder of
`format_slack_message`: ordered ascending by `min_days`, covering 0 to
infinity with no gaps, last entry unbounded. -/
def status_thresholds : List StatusThreshold :=
  [ ⟨0, some 0, "🔄", "Starting fresh"⟩,
    ⟨1, some 9, "🌱", "Building momentum"⟩,
    ⟨10, some 29, "🌿", "Growing strong"⟩,
    ⟨30, some 49, "🌳", "Solid foundation"⟩,
    ⟨50, none, "🏆", "Excellence achieved"⟩ ]

/-- An entry matches when `min_days ≤ days` and (`max_days` is unbounded or
`days ≤ max_days`). -/
def matchesThreshold (days : Int) (t : StatusThreshold) : Bool :=
  decide (t.min_days ≤ days) &&
    (match t.max_days with
     | none => true
     | some mx => decide (days ≤ mx))

/-- Modelled from the spec: `classify_status(days, config)` is a linear scan of
`status_thresholds` in order, returning the first matching entry. -/
def classify_status_scan (days : Int) : Option StatusThreshold :=
  status_thresholds.find? (matchesThreshold days)

/-- The exact-milestone table of `get_milestone_message`. -/
def milestones_table : List (Int × String) :=
  [ (10, "🎉 10 Days! Team shoutout time! 🎉"),
    (30, "☕ 30 Days! Virtual coffee vouchers for everyone! ☕"),
    (50, "🍽️ 50 Days! Team lunch celebration! 🍽️"),
    (100, "🎁 100 Days! Custom swag incoming! 🎁") ]

/-- Modelled from the spec: exact-match text when `days` is a key of the
milestone mapping (exact matches take precedence); otherwise the recurring
template when `days > 100` and `days mod recurring_interval = 0`; otherwise no
milestone. -/
def milestone_message_spec (days : Int) : Option String :=
  match milestones_table.lookup days with
  | some t => some t
  | none =>
    if days > 100 ∧ days % 50 = 0 then some (recurring_text days)
    else none

example : isoParse "1970-01-01" = some 0 := by decide
example : isoParse "2024-01-01" = some 19723 := by decide
example : (isoParse "2024-02-10").getD 0 - (isoParse "2024-01-01").getD 0 = 40 := by decide
example : isoParse "corrupt" = none := by decide
example : isoParse "2024-02-30" = none := by decide
example : isoParse "" = none := by decide

/-! ### Order properties of the Python string comparison -/

lemma charListLe_trans : ∀ a b c : List Char,
    charListLe a b = true → charListLe b c = true → charListLe a c = true
  | [], _, _, _, _ => rfl
  | x :: xs, [], _, h1, _ => by simp [charListLe] at h1
  | x :: xs, y :: ys, [], _, h2 => by simp [charListLe] at h2
  | x :: xs, y :: ys, z :: zs, h1, h2 => by
    simp only [charListLe] at h1 h2 ⊢
    by_cases hxy : x.toNat < y.toNat
    · by_cases hyz : y.toNat < z.toNat
      · rw [if_pos (by omega : x.toNat < z.toNat)]
      · by_cases hzy : z.toNat < y.toNat
        · rw [if_neg hyz, if_pos hzy] at h2; simp at h2
        · rw [if_pos (by omega : x.toNat < z.toNat)]
    · by_cases hyx : y.toNat < x.toNat
      · rw [if_neg hxy, if_pos hyx] at h1; simp at h1
      · rw [if_neg hxy, if_neg hyx] at h1
        by_cases hyz : y.toNat < z.toNat
        · rw [if_pos (by omega : x.toNat < z.toNat)]
        · by_cases hzy : z.toNat < y.toNat
          · rw [if_neg hyz, if_pos hzy] at h2; simp at h2
          · rw [if_neg hyz, if_neg hzy] at h2
            rw [if_neg (by omega : ¬ x.toNat < z.toNat),
              if_neg (by omega : ¬ z.toNat < x.toNat)]
            exact charListLe_trans xs ys zs h1 h2

lemma charListLe_total : ∀ a b : List Char, charListLe a b = true ∨ charListLe b a = true
  | [], _ => .inl rfl
  | _ :: _, [] => .inr rfl
  | x :: xs, y :: ys => by
    simp only [charListLe]
    by_cases hxy : x.toNat < y.toNat
    · exact .inl (by rw [if_pos hxy])
    · by_cases hyx : y.toNat < x.toNat
      · exact .inr (by rw [if_pos hyx])
      · rcases charListLe_total xs ys with h | h
        · exact .inl (by rw [if_neg hxy, if_neg hyx]; exact h)
        · exact .inr (by rw [if_neg hyx, if_neg hxy]; exact h)

lemma byDateAsc_total : IsTotal IncidentRecord byDateAsc :=
  ⟨fun a b => charListLe_total a.date.data b.date.data⟩

lemma byDateAsc_trans : IsTrans IncidentRecord byDateAsc :=
  ⟨fun _ _ _ h h2 => charListLe_trans _ _ _ h h2⟩

lemma byDateDesc_total : IsTotal IncidentRecord byDateDesc :=
  ⟨fun a b => charListLe_total b.date.data a.date.data⟩

lemma byDateDesc_trans : IsTrans IncidentRecord byDateDesc :=
  ⟨fun _ _ _ h h2 => charListLe_trans _ _ _ h2 h⟩

/-! ### Behaviour of the metric engine -/

/-- On a non-empty log, `get_last_incident_date` returns the date string of a
record whose date string is maximal in Python string order. -/
lemma get_last_spec : ∀ (incidents : IncidentLog), incidents ≠ [] →
    ∃ r ∈ incidents, get_last_incident_date incidents = some r.date ∧
      ∀ r2 ∈ incidents, strLe r2.date r.date
  | a :: l, _ => by
    haveI := byDateDesc_total
    haveI := byDateDesc_trans
    have hs : ((a :: l : IncidentLog).insertionSort byDateDesc).Sorted byDateDesc :=
      List.sorted_insertionSort byDateDesc (a :: l)
    have hlen : ((a :: l : IncidentLog).insertionSort byDateDesc).length = (a :: l).length :=
      (List.perm_insertionSort byDateDesc (a :: l)).length_eq
    cases hsort : (a :: l : IncidentLog).insertionSort byDateDesc with
    | nil => rw [hsort] at hlen; simp at hlen
    | cons b t =>
      have hb : b ∈ a :: l := (List.mem_insertionSort byDateDesc).mp (by rw [hsort]; simp)
      refine ⟨b, hb, ?_, ?_⟩
      · show ((a :: l : IncidentLog).insertionSort byDateDesc).head?.map IncidentRecord.date
          = some b.date
        rw [hsort]; rfl
      · intro r2 hr2
        rw [hsort] at hs
        have : r2 ∈ b :: t := by
          rw [← hsort]; exact (List.mem_insertionSort byDateDesc).mpr hr2
        rcases List.mem_cons.mp this with h | h
        · subst h
          rcases charListLe_total r2.date.data r2.date.data with h | h <;> exact h
        · exact List.rel_of_sorted_cons hs r2 h

/-- When the maximal date string is non-empty and parses, `days_since` is the
difference to the reference date (both script variants). -/
lemma days_since_of_last (parse : DateParser) (incidents : IncidentLog) (refDate : Int)
    (s : String) (d : Int) (hlast : get_last_incident_date incidents = some s)
    (hne : s ≠ "") (hd : parse s = some d) :
    calculate_days_since_incident parse incidents refDate = .ok (refDate - d) ∧
      calculate_days_since_incident_reset parse incidents refDate = refDate - d := by
  constructor <;>
    simp [calculate_days_since_incident, calculate_days_since_incident_reset, hlast, hne, hd]

/-- When every date in the log parses, `days_since` succeeds. -/
lemma days_since_ok (parse : DateParser) (incidents : IncidentLog) (refDate : Int)
    (hparse : ∀ r ∈ incidents, (parse r.date).isSome) :
    ∃ v, calculate_days_since_incident parse incidents refDate = .ok v := by
  by_cases h : incidents = []
  · subst h; exact ⟨0, rfl⟩
  · obtain ⟨r, hr, hlast, -⟩ := get_last_spec incidents h
    obtain ⟨d, hd⟩ := Option.isSome_iff_exists.mp (hparse r hr)
    by_cases hemp : r.date = ""
    · exact ⟨0, by simp [calculate_days_since_incident, hlast, hemp]⟩
    · exact ⟨refDate - d, by simp [calculate_days_since_incident, hlast, hemp, hd]⟩

example :
    calculate_record_streak isoParse [mkRec "2024-01-01", mkRec "2024-01-11"]
      (daysFromCivil 2024 2 10) = .ok 30 := by decide

example :
    calculate_days_since_incident isoParse [mkRec "2024-01-01", mkRec "2024-01-11"]
      (daysFromCivil 2024 2 10) = .ok 30 := by decide

example : get_last_incident_date [mkRec "2024-01-05", mkRec "2024-03-01", mkRec "2024-02-10"]
    = some "2024-03-01" := by decide

/-! ### Error handling of days_since on corrupt logs (C3) -/

/-- C3 counterexample: a log containing the unparseable date `"!!!"` (its string
sorts below `"2024-01-01"`, so it is not the most recent entry) does not abort
`days_since`: the check-script variant returns `.ok 40`.  Moreover the
reset-script variant silently returns `0` when even the most recent date is
corrupt. -/
theorem days_since_corrupt_counterexample :
    isoParse (mkRec "!!!").date = none ∧
    mkRec "!!!" ∈ ([mkRec "!!!", mkRec "2024-01-01"] : IncidentLog) ∧
    calculate_days_since_incident isoParse [mkRec "!!!", mkRec "2024-01-01"]
      (daysFromCivil 2024 2 10) = .ok 40 ∧
    calculate_days_since_incident_reset isoParse [mkRec "corrupt"] 0 = 0 := by
  decide

/-- C3 (amended): `days_since` aborts exactly when the *most recent* incident
date (the maximal date string, when non-empty) cannot be parsed — and only in
the check/utils variant; the reset-script variant catches the error and
silently returns 0. -/
theorem days_since_corrupt_last_fatal (parse : DateParser) (incidents : IncidentLog)
    (refDate : Int) (s : String) (hlast : get_last_incident_date incidents = some s)
    (hne : s ≠ "") (hbad : parse s = none) :
    calculate_days_since_incident parse incidents refDate
      = .error ("Error parsing date " ++ s) ∧
    calculate_days_since_incident_reset parse incidents refDate = 0 := by
  constructor <;>
    simp [calculate_days_since_incident, calculate_days_since_incident_reset, hlast, hne, hbad]

theorem days_since_corrupt_last_fatal_witness :
    calculate_days_since_incident isoParse [mkRec "corrupt"] 0
      = .error ("Error parsing date " ++ "corrupt") ∧
    calculate_days_since_incident_reset isoParse [mkRec "corrupt"] 0 = 0 :=
  days_since_corrupt_last_fatal isoParse [mkRec "corrupt"] 0 "corrupt"
    (by decide) (by decide) (by decide)

/-! ### Loading the incident store (C4) -/

/-- C4 counterexample: the loader of `check_incident_counter.py` treats a
missing `last_incident.json` as a fatal error, not as an empty log. -/
theorem load_missing_counterexample :
    load_incident_data_check FileState.missing ≠ Except.ok ⟨[]⟩ ∧
    load_incident_data_check FileState.missing
      = .error "Error: last_incident.json not found" := by
  decide

/-- C4 (amended): the loaders of `incident_utils.py` and `reset_counter.py`
return the empty incident log when the store file is missing, but the loader of
`check_incident_counter.py` aborts the run instead. -/
theorem load_missing_amended :
    load_incident_data_utils FileState.missing = .ok ⟨[]⟩ ∧
    load_incident_data_reset FileState.missing = .ok ⟨[]⟩ ∧
    load_incident_data_check FileState.missing
      = .error "Error: last_incident.json not found" :=
  ⟨rfl, rfl, rfl⟩

/-! ### Future-dated incidents (C10) -/

/-- C10: when the most recent incident date is non-empty, parses, and lies
strictly after the reference date, `days_since` returns the exact negative
difference `reference − last`, with no clamping to zero. -/
theorem days_since_future_negative (parse : DateParser) (incidents : IncidentLog)
    (refDate : Int) (s : String) (d : Int)
    (hlast : get_last_incident_date incidents = some s) (hne : s ≠ "")
    (hp : parse s = some d) (hfut : refDate < d) :
    calculate_days_since_incident parse incidents refDate = .ok (refDate - d) ∧
      refDate - d < 0 := by
  refine ⟨(days_since_of_last parse incidents refDate s d hlast hne hp).1, by omega⟩

theorem days_since_future_negative_witness :
    calculate_days_since_incident isoParse [mkRec "2024-03-01"] (daysFromCivil 2024 2 20)
      = .ok (-10) ∧ (-10 : Int) < 0 := by
  have h := days_since_future_negative isoParse [mkRec "2024-03-01"]
    (daysFromCivil 2024 2 20) "2024-03-01" (daysFromCivil 2024 3 1)
    (by decide) (by decide) (by decide) (by decide)
  exact ⟨h.1.trans (by decide), by decide⟩

/-! ### Appending an incident (C8) -/

/-- C8: `append_incident` computes `days_lost` from the log *before* the new
record is appended, the updated log has exactly one more record, and when the
pre-append last incident parses to day `d`, `days_lost` is exactly
`reference − d` (so a last incident 20 days before the new incident's date
yields `days_lost = 20`). -/
theorem append_incident_spec (parse : DateParser) (log : IncidentLog)
    (newRec : IncidentRecord) (refDate : Int) :
    (append_incident parse log newRec refDate).2
      = calculate_days_since_incident_reset parse log refDate ∧
    (append_incident parse log newRec refDate).1.length = log.length + 1 ∧
    (∀ s d, get_last_incident_date log = some s → s ≠ "" → parse s = some d →
      (append_incident parse log newRec refDate).2 = refDate - d) := by
  refine ⟨rfl, by simp [append_incident], ?_⟩
  intro s d hs hne hd
  exact (days_since_of_last parse log refDate s d hs hne hd).2

theorem append_incident_spec_witness :
    (append_incident isoParse [mkRec "2024-01-01"] (mkRec "2024-01-21")
      (daysFromCivil 2024 1 21)).2 = 20 ∧
    (append_incident isoParse [mkRec "2024-01-01"] (mkRec "2024-01-21")
      (daysFromCivil 2024 1 21)).1.length = 2 := by
  have h := append_incident_spec isoParse [mkRec "2024-01-01"] (mkRec "2024-01-21")
    (daysFromCivil 2024 1 21)
  exact ⟨(h.2.2 "2024-01-01" (daysFromCivil 2024 1 1) (by decide) (by decide)
    (by decide)).trans (by decide), h.2.1.trans (by decide)⟩

/-! ### Status classification (C5) -/

/-- C5: for every non-negative day count, the status ladder of
`format_slack_message` yields exactly the first entry of the threshold table
whose range contains the value; the linear scan never fails on a non-negative
integer. -/
theorem classify_status_first_match (days : Int) (h : 0 ≤ days) :
    ∃ t, classify_status_scan days = some t ∧ t ∈ status_thresholds ∧
      matchesThreshold days t = true ∧
      (t.emoji, t.status_label) = classify_status days := by
  by_cases h0 : days = 0
  · subst h0
    exact ⟨⟨0, some 0, "🔄", "Starting fresh"⟩, by decide, by decide, by decide, by decide⟩
  by_cases h10 : days < 10
  · refine ⟨⟨1, some 9, "🌱", "Building momentum"⟩, ?_, by decide, ?_, ?_⟩
    · have h1 : ¬ (days ≤ 0) := by omega
      have h2 : (1 : Int) ≤ days := by omega
      have h3 : days ≤ 9 := by omega
      simp [classify_status_scan, status_thresholds, List.find?, matchesThreshold, h, h1, h2, h3]
    · simp only [matchesThreshold]
      simp only [Bool.and_eq_true, decide_eq_true_eq]
      exact ⟨by omega, by omega⟩
    · simp [classify_status, h0, h10]
  by_cases h30 : days < 30
  · refine ⟨⟨10, some 29, "🌿", "Growing strong"⟩, ?_, by decide, ?_, ?_⟩
    · have h1 : ¬ (days ≤ 0) := by omega
      have h2 : ¬ (days ≤ 9) := by omega
      have h3 : (10 : Int) ≤ days := by omega
      have h4 : days ≤ 29 := by omega
      simp [classify_status_scan, status_thresholds, List.find?, matchesThreshold,
        h, h1, h2, h3, h4]
    · simp only [matchesThreshold]
      simp only [Bool.and_eq_true, decide_eq_true_eq]
      exact ⟨by omega, by omega⟩
    · simp [classify_status, h0, h10, h30]
  by_cases h50 : days < 50
  · refine ⟨⟨30, some 49, "🌳", "Solid foundation"⟩, ?_, by decide, ?_, ?_⟩
    · have h1 : ¬ (days ≤ 0) := by omega
      have h2 : ¬ (days ≤ 9) := by omega
      have h3 : ¬ (days ≤ 29) := by omega
      have h4 : (30 : Int) ≤ days := by omega
      have h5 : days ≤ 49 := by omega
      simp [classify_status_scan, status_thresholds, List.find?, matchesThreshold,
        h, h1, h2, h3, h4, h5]
    · simp only [matchesThreshold]
      simp only [Bool.and_eq_true, decide_eq_true_eq]
      exact ⟨by omega, by omega⟩
    · simp [classify_status, h0, h10, h30, h50]
  · refine ⟨⟨50, none, "🏆", "Excellence achieved"⟩, ?_, by decide, ?_, ?_⟩
    · have h1 : ¬ (days ≤ 0) := by omega
      have h2 : ¬ (days ≤ 9) := by omega
      have h3 : ¬ (days ≤ 29) := by omega
      have h4 : ¬ (days ≤ 49) := by omega
      have h5 : (50 : Int) ≤ days := by omega
      simp [classify_status_scan, status_thresholds, List.find?, matchesThreshold,
        h, h1, h2, h3, h4, h5]
    · simp only [matchesThreshold]
      simp only [Bool.and_eq_true, decide_eq_true_eq]
      exact ⟨by omega, trivial⟩
    · simp [classify_status, h0, h10, h30, h50]

theorem classify_status_first_match_witness :
    (0 : Int) ≤ 42 ∧
    ∃ t, classify_status_scan 42 = some t ∧ t ∈ status_thresholds ∧
      matchesThreshold 42 t = true ∧
      (t.emoji, t.status_label) = classify_status 42 :=
  ⟨by decide, classify_status_first_match 42 (by decide)⟩

/-! ### Milestone messages (C6) -/

/-- C6: `get_milestone_message` coincides with the spec's rule: exact-match
text when `days` is a key of the milestone table (exact matches take
precedence), otherwise the recurring template exactly when `days > 100` and
`days` is divisible by the recurring interval 50, otherwise no milestone. -/
theorem milestone_message_matches_spec (days : Int) :
    get_milestone_message days = milestone_message_spec days := by
  by_cases h10 : days = 10
  · subst h10; decide
  by_cases h30 : days = 30
  · subst h30; decide
  by_cases h50 : days = 50
  · subst h50; decide
  by_cases h100 : days = 100
  · subst h100; decide
  · have e10 : (days == (10 : Int)) = false := by simp [h10]
    have e30 : (days == (30 : Int)) = false := by simp [h30]
    have e50 : (days == (50 : Int)) = false := by simp [h50]
    have e100 : (days == (100 : Int)) = false := by simp [h100]
    simp [get_milestone_message, milestone_message_spec, milestones_table, List.lookup,
      h10, h30, h50, h100, e10, e30, e50, e100]

example : get_milestone_message 150 = some (recurring_text 150) := by decide
example : get_milestone_message 110 = none := by decide
example : get_milestone_message 10 = some "🎉 10 Days! Team shoutout time! 🎉" := by decide

/-! ### Record streak dominates the live streak (C2) -/

/-- C2: whenever `record_streak` returns a value, `days_since` also returns a
value on the same log and reference date, and the record streak is at least the
current streak. -/
theorem record_streak_ge_days_since (parse : DateParser) (incidents : IncidentLog)
    (refDate : Int) (r : Int)
    (h : calculate_record_streak parse incidents refDate = .ok r) :
    ∃ v, calculate_days_since_incident parse incidents refDate = .ok v ∧ v ≤ r := by
  unfold calculate_record_streak at h
  by_cases hlen : incidents.length < 2
  · rw [if_pos hlen] at h
    exact ⟨r, h, le_refl r⟩
  · rw [if_neg hlen] at h
    cases hg : consecutiveGaps parse (incidents.insertionSort byDateAsc) with
    | error e => rw [hg] at h; simp at h
    | ok gaps =>
      rw [hg] at h
      cases hd : calculate_days_since_incident parse incidents refDate with
      | error e => rw [hd] at h; simp at h
      | ok current =>
        rw [hd] at h
        simp only [Except.ok.injEq] at h
        exact ⟨current, rfl, by rw [← h]; exact le_max_right _ _⟩

theorem record_streak_ge_days_since_witness :
    calculate_record_streak isoParse [mkRec "2024-01-01", mkRec "2024-01-11"]
      (daysFromCivil 2024 2 10) = .ok 30 ∧
    ∃ v, calculate_days_since_incident isoParse [mkRec "2024-01-01", mkRec "2024-01-11"]
      (daysFromCivil 2024 2 10) = .ok v ∧ v ≤ 30 :=
  ⟨by decide, record_streak_ge_days_since isoParse [mkRec "2024-01-01", mkRec "2024-01-11"]
    (daysFromCivil 2024 2 10) 30 (by decide)⟩

/-! ### Message structure (C7) -/

lemma recurring_text_ne_empty (d : Int) : recurring_text d ≠ "" := by
  intro h
  have hlen := congrArg String.length h
  rw [recurring_text, String.length_append, String.length_append] at hlen
  have h1 : ("🏆 " : String).length = 2 := rfl
  have h2 : ("" : String).length = 0 := rfl
  rw [h1, h2] at hlen
  omega

lemma milestone_some_ne_empty (d : Int) (m : String)
    (h : get_milestone_message d = some m) : m ≠ "" := by
  intro hempty
  subst hempty
  unfold get_milestone_message at h
  split_ifs at h <;> simp_all [recurring_text_ne_empty]

/-- C7: the blocks of the Slack message are, in order: a header, the four-field
section (current streak, status, last incident date or fallback, record
streak), then a new-record section exactly when `days_since > 0` and
`days_since = record_streak`, then a milestone section exactly when a milestone
message exists (after the new-record section when both apply), then a context
footer with the total incident count exactly when `days_since > 0`. -/
theorem format_slack_message_structure (data : IncidentData)
    (days_since record_streak : Int) :
    (format_slack_message data days_since record_streak).blocks =
      [Block.header ((classify_status days_since).1 ++ " Days Without Incident"),
       Block.fieldsSection
         [ "*Current Streak:*\n" ++ toString days_since ++ " days",
           "*Status:*\n" ++ (classify_status days_since).2,
           "*Last Incident:*\n" ++
             (match get_last_incident_date data.incidents with
              | none => "None recorded"
              | some s => if s = "" then "None recorded" else s),
           "*Record Streak:*\n" ++ toString record_streak ++ " days" ]]
      ++ (if days_since > 0 ∧ days_since = record_streak
          then [Block.textSection newRecordText] else [])
      ++ (match get_milestone_message days_since with
          | some m => [Block.textSection ("🎊 *MILESTONE REACHED!* 🎊\n" ++ m)]
          | none => [])
      ++ (if days_since > 0
          then [Block.contextBlock ["Total incidents recorded: " ++
            toString data.incidents.length ++
            " | Every day without an incident is a win! 💪"]]
          else []) := by
  unfold format_slack_message
  cases hm : get_milestone_message days_since with
  | none =>
    rcases eq_or_ne days_since record_streak with h3 | h3
    · subst h3; by_cases h2 : days_since > 0 <;> simp [hm, h2]
    · by_cases h2 : days_since > 0 <;> simp [hm, h2, h3]
  | some m =>
    have hne : m ≠ "" := milestone_some_ne_empty days_since m hm
    rcases eq_or_ne days_since record_streak with h3 | h3
    · subst h3; by_cases h2 : days_since > 0 <;> simp [hm, h2, hne]
    · by_cases h2 : days_since > 0 <;> simp [hm, h2, h3, hne]

/-! ### Chronological structure of the record streak (C1, C9) -/

lemma consecutiveGaps_ok (parse : DateParser) :
    ∀ l : IncidentLog, (∀ r ∈ l, (parse r.date).isSome) →
      consecutiveGaps parse l = Except.ok (pairGaps (datesOf parse l))
  | [], _ => rfl
  | [_], _ => rfl
  | a :: b :: rest, h => by
    obtain ⟨da, hda⟩ := Option.isSome_iff_exists.mp (h a (by simp))
    obtain ⟨db, hdb⟩ := Option.isSome_iff_exists.mp (h b (by simp))
    have ih := consecutiveGaps_ok parse (b :: rest)
      (fun r hr => h r (List.mem_cons_of_mem a hr))
    simp only [consecutiveGaps, hda, hdb, ih, datesOf, List.map_cons, pairGaps,
      Option.getD_some]

lemma pairGaps_nonneg : ∀ l : List Int, l.Sorted (· ≤ ·) → ∀ g ∈ pairGaps l, 0 ≤ g
  | [], _, g, hg => by simp [pairGaps] at hg
  | [_], _, g, hg => by simp [pairGaps] at hg
  | a :: b :: rest, hs, g, hg => by
    rcases List.mem_cons.mp hg with h | h
    · have hab : a ≤ b := (List.sorted_cons.mp hs).1 b (by simp)
      rw [h]; omega
    · exact pairGaps_nonneg (b :: rest) (List.sorted_cons.mp hs).2 g h

lemma pairGaps_ne_nil : ∀ l : List Int, 2 ≤ l.length → pairGaps l ≠ []
  | [], h => by simp at h
  | [_], h => by simp at h
  | _ :: _ :: _, _ => by simp [pairGaps]

lemma foldl_max_le_acc : ∀ (l : List Int) (a : Int), a ≤ l.foldl max a
  | [], a => le_refl a
  | x :: l, a => le_trans (le_max_left a x) (foldl_max_le_acc l (max a x))

lemma foldl_max_ge_mem : ∀ (l : List Int) (a x : Int), x ∈ l → x ≤ l.foldl max a
  | [], _, _, hx => absurd hx (List.not_mem_nil _)
  | y :: l, a, x, hx => by
    rcases List.mem_cons.mp hx with h | h
    · subst h
      exact le_trans (le_max_right a x) (foldl_max_le_acc l (max a x))
    · exact foldl_max_ge_mem l (max a y) x h

lemma foldl_max_mem_or_acc : ∀ (l : List Int) (a : Int), l.foldl max a = a ∨ l.foldl max a ∈ l
  | [], _ => .inl rfl
  | x :: l, a => by
    rcases foldl_max_mem_or_acc l (max a x) with h | h
    · rcases max_choice a x with hm | hm
      · exact .inl (by rw [List.foldl_cons, h, hm])
      · exact .inr (by rw [List.foldl_cons, h, hm]; exact List.mem_cons_self x l)
    · exact .inr (List.mem_cons_of_mem x (by rw [List.foldl_cons]; exact h))

/-- On a non-empty list of non-negative integers, `foldl max 0` is the maximum:
a member of the list bounding every member. -/
lemma foldl_max_spec (l : List Int) (hne : l ≠ []) (hpos : ∀ x ∈ l, 0 ≤ x) :
    l.foldl max 0 ∈ l ∧ ∀ x ∈ l, x ≤ l.foldl max 0 := by
  refine ⟨?_, fun x hx => foldl_max_ge_mem l 0 x hx⟩
  rcases foldl_max_mem_or_acc l 0 with h | h
  · cases l with
    | nil => exact absurd rfl hne
    | cons y t =>
      have hy1 : y ≤ 0 := by
        have hy2 := foldl_max_ge_mem (y :: t) 0 y (List.mem_cons_self y t)
        rw [h] at hy2
        exact hy2
      have hy : y = 0 := le_antisymm hy1 (hpos y (List.mem_cons_self y t))
      rw [h, ← hy]
      exact List.mem_cons_self y t
  · exact h

/-- When string order and parsed-date order agree on the log, sorting by date
string sorts the parsed dates ascending: the string-sorted log is
chronologically sorted. -/
lemma datesOf_sorted (parse : DateParser) (l : IncidentLog)
    (hmono : ∀ r ∈ l, ∀ r2 ∈ l,
      (strLe r.date r2.date ↔ (parse r.date).getD 0 ≤ (parse r2.date).getD 0)) :
    (datesOf parse (l.insertionSort byDateAsc)).Sorted (· ≤ ·) := by
  haveI := byDateAsc_total
  haveI := byDateAsc_trans
  have hs : (l.insertionSort byDateAsc).Sorted byDateAsc :=
    List.sorted_insertionSort byDateAsc l
  show List.Pairwise (· ≤ ·)
    (List.map (fun r => (parse r.date).getD 0) (l.insertionSort byDateAsc))
  rw [List.pairwise_map]
  exact List.Pairwise.imp_of_mem
    (fun {a b} ha hb hab =>
      (hmono a ((List.mem_insertionSort byDateAsc).mp ha) b
        ((List.mem_insertionSort byDateAsc).mp hb)).mp hab) hs

/-- C9: when string order and parsed-date order agree on the log's dates (as
for canonical ISO-8601 date strings), `get_last_incident_date` returns `none`
on the empty log, and on a non-empty log the date of a record holding the
maximum date value. -/
theorem get_last_incident_date_spec (parse : DateParser) (incidents : IncidentLog)
    (hmono : ∀ r ∈ incidents, ∀ r2 ∈ incidents,
      (strLe r.date r2.date ↔ (parse r.date).getD 0 ≤ (parse r2.date).getD 0)) :
    (incidents = [] → get_last_incident_date incidents = none) ∧
    (incidents ≠ [] → ∃ r ∈ incidents, get_last_incident_date incidents = some r.date ∧
      ∀ r2 ∈ incidents, (parse r2.date).getD 0 ≤ (parse r.date).getD 0) := by
  refine ⟨fun h => by subst h; rfl, fun h => ?_⟩
  obtain ⟨r, hr, hlast, hmax⟩ := get_last_spec incidents h
  exact ⟨r, hr, hlast, fun r2 hr2 => (hmono r2 hr2 r hr).mp (hmax r2 hr2)⟩

theorem get_last_incident_date_spec_witness :
    ([mkRec "2024-01-05", mkRec "2024-03-01", mkRec "2024-02-10"] : IncidentLog) ≠ [] ∧
    ∃ r ∈ ([mkRec "2024-01-05", mkRec "2024-03-01", mkRec "2024-02-10"] : IncidentLog),
      get_last_incident_date [mkRec "2024-01-05", mkRec "2024-03-01", mkRec "2024-02-10"]
        = some r.date ∧
      ∀ r2 ∈ ([mkRec "2024-01-05", mkRec "2024-03-01", mkRec "2024-02-10"] : IncidentLog),
        (isoParse r2.date).getD 0 ≤ (isoParse r.date).getD 0 :=
  ⟨by decide, (get_last_incident_date_spec isoParse
    [mkRec "2024-01-05", mkRec "2024-03-01", mkRec "2024-02-10"] (by decide)).2 (by decide)⟩

/-- C1: when every date parses and string order agrees with parsed-date order
(as for canonical ISO-8601 date strings), a log with fewer than two records has
`record_streak = days_since`, and a log with at least two records has
`record_streak = max g current`, where `g` is the maximum gap between
chronologically consecutive incidents (the log sorted ascending by date) and
`current` is the current streak `days_since`. -/
theorem record_streak_max_gap (parse : DateParser) (incidents : IncidentLog) (refDate : Int)
    (hparse : ∀ r ∈ incidents, (parse r.date).isSome)
    (hmono : ∀ r ∈ incidents, ∀ r2 ∈ incidents,
      (strLe r.date r2.date ↔ (parse r.date).getD 0 ≤ (parse r2.date).getD 0)) :
    (incidents.length < 2 →
      calculate_record_streak parse incidents refDate
        = calculate_days_since_incident parse incidents refDate) ∧
    (2 ≤ incidents.length →
      ∃ chron : IncidentLog, incidents.Perm chron ∧
        (datesOf parse chron).Sorted (· ≤ ·) ∧
        ∃ g ∈ pairGaps (datesOf parse chron),
          (∀ g2 ∈ pairGaps (datesOf parse chron), g2 ≤ g) ∧
          ∃ current, calculate_days_since_incident parse incidents refDate
              = Except.ok current ∧
            calculate_record_streak parse incidents refDate
              = Except.ok (max g current)) := by
  constructor
  · intro hlt
    unfold calculate_record_streak
    rw [if_pos hlt]
  · intro hge
    have hperm := List.perm_insertionSort byDateAsc incidents
    have hsorted := datesOf_sorted parse incidents hmono
    have hparse2 : ∀ r ∈ incidents.insertionSort byDateAsc, (parse r.date).isSome :=
      fun r hr => hparse r ((List.mem_insertionSort byDateAsc).mp hr)
    have hgaps := consecutiveGaps_ok parse (incidents.insertionSort byDateAsc) hparse2
    have hlen : (datesOf parse (incidents.insertionSort byDateAsc)).length
        = incidents.length := by
      simp [datesOf, hperm.length_eq]
    have hnn := pairGaps_nonneg _ hsorted
    have hne : pairGaps (datesOf parse (incidents.insertionSort byDateAsc)) ≠ [] :=
      pairGaps_ne_nil _ (by omega)
    obtain ⟨hmem, hmax⟩ := foldl_max_spec _ hne hnn
    obtain ⟨v, hv⟩ := days_since_ok parse incidents refDate hparse
    refine ⟨incidents.insertionSort byDateAsc, hperm.symm, hsorted, _, hmem, hmax,
      v, hv, ?_⟩
    unfold calculate_record_streak
    rw [if_neg (by omega), hgaps, hv]

theorem record_streak_max_gap_witness :
    2 ≤ ([mkRec "2024-01-01", mkRec "2024-01-11"] : IncidentLog).length ∧
    ∃ chron : IncidentLog,
      ([mkRec "2024-01-01", mkRec "2024-01-11"] : IncidentLog).Perm chron ∧
      (datesOf isoParse chron).Sorted (· ≤ ·) ∧
      ∃ g ∈ pairGaps (datesOf isoParse chron),
        (∀ g2 ∈ pairGaps (datesOf isoParse chron), g2 ≤ g) ∧
        ∃ current, calculate_days_since_incident isoParse
            [mkRec "2024-01-01", mkRec "2024-01-11"] (daysFromCivil 2024 2 10)
            = Except.ok current ∧
          calculate_record_streak isoParse [mkRec "2024-01-01", mkRec "2024-01-11"]
            (daysFromCivil 2024 2 10) = Except.ok (max g current) :=
  ⟨by decide, (record_streak_max_gap isoParse [mkRec "2024-01-01", mkRec "2024-01-11"]
    (daysFromCivil 2024 2 10) (by decide) (by decide)).2 (by decide)⟩
